import Mathlib

/-!
Verification development for the dmpbbo repository fragment consisting of
`src/dmp_bbo/tasks/TaskViapoint.cpp` and `DmpWithGainSchedules.cpp`.

The C++ `double` arithmetic is idealised: the TaskViapoint part is developed
over an arbitrary `LinearOrderedField K` (so the definitions stay computable;
`std::sqrt` is passed in as a function parameter) and the theorems instantiate
`K := ℝ` with `sqrt := Real.sqrt`.  Eigen vectors and matrices are embedded as
`List K` and `List (List K)` (row-major).  C++ `assert` failures and undefined
behaviour (out-of-bounds indexing, null-pointer dereference) are embedded as
`Option.none`.
-/

namespace DmpBbo

variable {K : Type*} [LinearOrderedField K]

/-- Modelled from the spec: the sentinel constant `TIME_AT_MINIMUM_DIST` is
declared in `TaskViapoint.hpp`, which is not part of the given sources; the
spec describes it as a magic negative number selecting "minimum distance"
mode.  Its concrete value is taken to be `-1`; no theorem below depends on the
exact value, only on the comparisons written in `TaskViapoint.cpp`. -/
def TIME_AT_MINIMUM_DIST : K := -1

/-- The task parameters of `TaskViapoint` (members of the C++ class). -/
structure TaskViapoint (K : Type*) where
  viapoint : List K
  viapoint_time : K
  viapoint_radius : K
  goal : List K
  goal_time : K
  viapoint_weight : K
  acceleration_weight : K
  goal_weight : K

/-- Embedding of Eigen's `(row - v).array().pow(2).sum()` (also
`(y.row(i) - v.transpose()).squaredNorm()`): the squared Euclidean distance
between a sample row and a point.  Eigen asserts that both sides have the same
size; `zipWith` realises that assumption. -/
def rowSqDist (row v : List K) : K :=
  (List.zipWith (fun a b => (a - b) ^ 2) row v).sum

/-- Embedding of Eigen's `minCoeff()` over a column: `none` on an empty column
(Eigen asserts non-emptiness there). -/
def minCoeff? : List K → Option K
  | [] => none
  | a :: rest => some (rest.foldl min a)

/-- Embedding of the forward-scan loop
`while (i < ts.size() && ts[i] < t) i++;` used for both the viapoint and the
goal lookup in `TaskViapoint::computeCosts`: the first index whose sample time
is not less than `t`, or `ts.length` when every sample time is less. -/
def firstAtOrAfter (t : K) : List K → ℕ
  | [] => 0
  | s :: rest => if s < t then firstAtOrAfter t rest + 1 else 0

/-- Embedding of Eigen's `m.bottomRows(k)`: the last `k` rows. -/
def bottomRows (m : List (List K)) (k : ℕ) : List (List K) :=
  m.drop (m.length - k)

/-- The `dist_to_viapoint` computation of `TaskViapoint::computeCosts`
(lines 68-98), including the radius clamp.  `sqrt` stands for `std::sqrt`.
Returns `none` when the source hits `assert(viapoint_time_step < ts.size())`
or calls `minCoeff()` on an empty column.  `y.getD i []` embeds `y.row(i)`
under the source's implicit assumption `y.rows() == ts.size()`. -/
def distToViapoint? (sqrt : K → K) (task : TaskViapoint K) (ts : List K)
    (y : List (List K)) : Option K :=
  if task.viapoint_weight ≠ 0 then
    (if task.viapoint_time = TIME_AT_MINIMUM_DIST then
      minCoeff? (y.map (fun row => rowSqDist row task.viapoint))
    else
      if firstAtOrAfter task.viapoint_time ts < ts.length then
        some (sqrt (rowSqDist (y.getD (firstAtOrAfter task.viapoint_time ts) []) task.viapoint))
      else
        none).map
      (fun d =>
        if 0 < task.viapoint_radius then
          if d - task.viapoint_radius < 0 then 0 else d - task.viapoint_radius
        else d)
  else some 0

/-- Embedding of `TaskViapoint::computeCosts` (lines 64-127).  `ts` is the
time column, `y` the `T x D` position matrix, `ydd` the `T x D` acceleration
matrix; the result is the cost vector `[total, viapoint, acceleration, goal]`.
`none` embeds an `assert` failure inside the viapoint branch.  (When
`ts.length = 0` and the acceleration weight is nonzero the C++ divides 0.0 by
0, producing NaN; field division by zero yields 0 here — no claim touches that
corner.) -/
def computeCosts (sqrt : K → K) (task : TaskViapoint K) (ts : List K)
    (y ydd : List (List K)) : Option (List K) :=
  (distToViapoint? sqrt task ts y).bind fun dist_to_viapoint =>
    let mean_ydd : K :=
      if task.acceleration_weight ≠ 0 then
        (ydd.map (fun row => (row.map (fun a => a ^ 2)).sum)).sum / (ts.length : K)
      else 0
    let delay_cost : K :=
      if task.goal_weight ≠ 0 then
        ((bottomRows y (ts.length - firstAtOrAfter task.goal_time ts)).map
          (fun row => rowSqDist row task.goal)).sum
      else 0
    let c1 := task.viapoint_weight * dist_to_viapoint
    let c2 := task.acceleration_weight * mean_ydd
    let c3 := task.goal_weight * delay_cost
    some [c1 + c2 + c3, c1, c2, c3]

/-- Embedding of `TaskViapoint::getNumberOfCostComponents` (line 148-151). -/
def getNumberOfCostComponents : ℕ := 3

/-- The single-row numeric record that `TaskViapoint::writeToFile`
(lines 205-221) writes, space-separated, in source order:
`viapoint(D), viapoint_time, viapoint_radius, goal(D), goal_time,
viapoint_weight, acceleration_weight, goal_weight`. -/
def writeToFileRecord (t : TaskViapoint K) : List K :=
  t.viapoint ++ [t.viapoint_time, t.viapoint_radius] ++ t.goal ++
    [t.goal_time, t.viapoint_weight, t.acceleration_weight, t.goal_weight]

/-- Embedding of `TaskViapoint::readFromFile` (lines 182-203) on the parsed
numeric row.  `n_dims` is inferred as `(size - 6) / 2`; a negative stored
`viapoint_time` is replaced by the sentinel `TIME_AT_MINIMUM_DIST`.
`getD _ 0` embeds Eigen's `vector[i]` under the in-range assumption the
source's fixed layout provides. -/
def readFromFile (row : List K) : TaskViapoint K :=
  let n_dims := (row.length - 6) / 2
  { viapoint := row.take n_dims
    viapoint_time :=
      if row.getD n_dims 0 < 0 then TIME_AT_MINIMUM_DIST else row.getD n_dims 0
    viapoint_radius := row.getD (n_dims + 1) 0
    goal := (row.drop (n_dims + 2)).take n_dims
    goal_time := row.getD (2 * n_dims + 2) 0
    viapoint_weight := row.getD (2 * n_dims + 3) 0
    acceleration_weight := row.getD (2 * n_dims + 4) 0
    goal_weight := row.getD (2 * n_dims + 5) 0 }

/-- The boolean result of `TaskViapoint::writeToFile` (lines 205-221) as a
function of whether `ofstream::open` succeeded: the source never checks the
stream state and reaches `return true` unconditionally (insertions into a
failed stream are silently dropped). -/
def writeToFileResult (open_ok : Bool) (t : TaskViapoint K) : Bool :=
  true

/-- The boolean result of `TaskViapoint::savePlotRolloutScript`
(lines 224-282) as a function of whether the file opened: the source returns
`false` from the `!file.is_open()` check and `true` after writing. -/
def savePlotRolloutScriptResult (open_ok : Bool) : Bool :=
  if open_ok = false then false else true

/-- The external `FunctionApproximator` capability: a trained flag and a
prediction map from a phase column to an output column. -/
structure FunctionApproximator (K : Type*) where
  isTrained : Bool
  predictFn : List K → List K

/-- Embedding of `FunctionApproximator::clone()`: a deep copy.  Under value
semantics a deep copy is the value itself. -/
def FunctionApproximator.clone (fa : FunctionApproximator K) :
    FunctionApproximator K := fa

/-- The state of a `DmpWithGainSchedules`: the original dimensionality
`dim_orig()` inherited from the base `Dmp`, the base primitive's one-step
integrator `Dmp::integrateStep` as an abstract capability (dt and state in,
updated state and derivative out), and the member
`function_approximators_gains_` — one slot per gain dimension, `none`
embedding a `NULL` pointer. -/
structure DmpWithGainSchedules (K : Type*) where
  dim_orig : ℕ
  baseStep : K → List K → List K × List K
  function_approximators_gains : List (Option (FunctionApproximator K))

/-- Embedding of
`DmpWithGainSchedules::initFunctionApproximatorsExtDims` (lines 116-133):
an empty input list returns early (the member stays empty), otherwise each
slot is `NULL`-checked and cloned. -/
def initFunctionApproximatorsExtDims
    (fas : List (Option (FunctionApproximator K))) :
    List (Option (FunctionApproximator K)) :=
  if fas.isEmpty then []
  else fas.map (fun slot => slot.map FunctionApproximator.clone)

/-- Fallible element-wise traversal: `none` as soon as `f` fails on an
element.  Used to embed loops whose body can hit undefined behaviour. -/
def listMapOption (f : α → Option β) : List α → Option (List β)
  | [] => some []
  | a :: l =>
    match f a, listMapOption f l with
    | some b, some bs => some (b :: bs)
    | _, _ => none

/-- One iteration of the per-dimension loop of
`DmpWithGainSchedules::computeFunctionApproximatorOutputExtendedDimensions`
(lines 161-179): reading `function_approximators_gains_[i_dim]` past the end
of the vector is undefined behaviour (`none`); a `NULL` or untrained slot
leaves its column at the zero fill; a trained slot predicts from the phase
column. -/
def gainColumn (bank : List (Option (FunctionApproximator K)))
    (phase_state : List K) (i_dim : ℕ) : Option (List K) :=
  match bank[i_dim]? with
  | none => none
  | some none => some (List.replicate phase_state.length 0)
  | some (some fa) =>
    if fa.isTrained then some (fa.predictFn phase_state)
    else some (List.replicate phase_state.length 0)

/-- Embedding of
`DmpWithGainSchedules::computeFunctionApproximatorOutputExtendedDimensions`
(lines 151-180).  `phase_state` is the `T x 1` phase column; the result is
the `T x dim_orig()` matrix `fa_output`, represented column-wise (the source
zero-fills it and then writes whole columns). -/
def computeFunctionApproximatorOutputExtendedDimensions
    (d : DmpWithGainSchedules K) (phase_state : List K) :
    Option (List (List K)) :=
  listMapOption (gainColumn d.function_approximators_gains phase_state)
    (List.range d.dim_orig)

/-- Embedding of the `PHASE` macro `segment(3*dim_orig()+0, 1)`: the
one-scalar phase slice of a state vector. -/
def phaseOfState (dim_orig : ℕ) (x : List K) : List K :=
  (x.drop (3 * dim_orig)).take 1

/-- Embedding of `DmpWithGainSchedules::integrateStep` (lines 192-204):
delegate one step to `Dmp::integrateStep`, extract the phase of the updated
state `x_updated.PHASE`, compute the gain row for that single phase sample
and return it transposed (as a `dim_orig()`-vector). -/
def DmpWithGainSchedules.integrateStep (d : DmpWithGainSchedules K) (dt : K)
    (x : List K) : Option (List K × List K × List K) :=
  let stepped := d.baseStep dt x
  (computeFunctionApproximatorOutputExtendedDimensions d
      (phaseOfState d.dim_orig stepped.1)).map
    (fun gains_cols => (stepped.1, stepped.2, gains_cols.map (fun col => col.getD 0 0)))

/-- Embedding of `DmpWithGainSchedules::clone` (lines 141-148): the loop
calls `function_approximators_gains_[ff]->clone()` with no `NULL` check, so
an absent slot is a null-pointer dereference (`none`); the cloned vector is
then handed to the constructor, which runs
`initFunctionApproximatorsExtDims` on it, and `Dmp::clone()` deep-copies the
base primitive (value semantics: the same capability value). -/
def DmpWithGainSchedules.clone (d : DmpWithGainSchedules K) :
    Option (DmpWithGainSchedules K) :=
  (listMapOption (fun slot => slot.map (fun fa => some fa.clone))
      d.function_approximators_gains).map
    (fun fas =>
      { dim_orig := d.dim_orig
        baseStep := d.baseStep
        function_approximators_gains := initFunctionApproximatorsExtDims fas })

/-- The demonstrated trajectory as consumed by
`DmpWithGainSchedules::train`: its time points and its auxiliary (`misc`)
matrix, represented column-wise (`targets.col(dd)` is read per dimension). -/
structure Trajectory (K : Type*) where
  ts : List K
  misc : List (List K)

/-- A slot that contributes nothing to prediction: a `NULL` pointer or an
untrained approximator. -/
def slotAbsentOrUntrained (slot : Option (FunctionApproximator K)) : Bool :=
  match slot with
  | none => true
  | some fa => !fa.isTrained

/-- The observable events of `DmpWithGainSchedules::train`
(lines 230-282), in execution order. -/
inductive TrainEvent where
  | baseTrain
  | assertFail
  | warnNullSlot (dd : ℕ)
  | trainDim (dd : ℕ)
  | reTrainDim (dd : ℕ)
deriving DecidableEq

/-- Embedding of `DmpWithGainSchedules::train(trajectory, save_directory,
overwrite)` (lines 230-282) as its trace of observable events:
`Dmp::train` runs first (line 233, mutating the base primitive), then the
phase is recomputed (read-only), then
`assert(targets.cols() == function_approximators_gains_.size())` (line 248)
and `assert(!function_approximators_gains_.empty())` (line 252) fire, and
only then does the per-dimension loop warn on `NULL` slots and train or
retrain the present ones. -/
def trainTrace (d : DmpWithGainSchedules K) (traj : Trajectory K) :
    List TrainEvent :=
  TrainEvent.baseTrain ::
    (if traj.misc.length ≠ d.function_approximators_gains.length then
      [TrainEvent.assertFail]
    else if d.function_approximators_gains.isEmpty then
      [TrainEvent.assertFail]
    else
      (List.range d.function_approximators_gains.length).map (fun dd =>
        match d.function_approximators_gains.getD dd none with
        | none => TrainEvent.warnNullSlot dd
        | some fa =>
          if fa.isTrained then TrainEvent.reTrainDim dd
          else TrainEvent.trainDim dd))

/-- The forward scan runs to the end of the time column when every sample
time is below the target time. -/
theorem firstAtOrAfter_eq_length (t : K) (ts : List K)
    (h : ∀ s ∈ ts, s < t) : firstAtOrAfter t ts = ts.length := by
  induction ts with
  | nil => rfl
  | cons s rest ih =>
    simp only [firstAtOrAfter, List.length_cons]
    rw [if_pos (h s (List.mem_cons_self s rest)),
      ih (fun x hx => h x (List.mem_cons_of_mem s hx))]

/-- C1: in minimum-distance mode (`viapoint_time_ == TIME_AT_MINIMUM_DIST`,
nonzero viapoint weight) the claim says the viapoint distance equals the
analytical Euclidean nearest distance.  At the one-sample 1-D trajectory
`y = [[3]]` with viapoint `[1]` the source's
`(y.rowwise() - viapoint).rowwise().squaredNorm().minCoeff()` yields the
squared distance `4`, while the nearest Euclidean distance is
`sqrt ((3-1)^2) = 2`: the `sqrt` present in the at-a-time branch is missing
here, contradicting the source's own comment ("get the minimum distance")
and its radius-subtraction semantics. -/
theorem computeCosts_minimum_distance_mode_yields_squared_distance :
    computeCosts Real.sqrt
      { viapoint := [1], viapoint_time := TIME_AT_MINIMUM_DIST, viapoint_radius := 0,
        goal := [1], goal_time := 0,
        viapoint_weight := 1, acceleration_weight := 0, goal_weight := 0 }
      [0] [[3]] [[0]] = some [4, 4, 0, 0] ∧
    Real.sqrt (rowSqDist [3] [1]) = 2 ∧ (4 : ℝ) ≠ 2 := by
  refine ⟨?_, ?_, by norm_num⟩
  · simp [computeCosts, distToViapoint?, minCoeff?, rowSqDist, TIME_AT_MINIMUM_DIST]
    norm_num
  · have h : rowSqDist [(3 : ℝ)] [1] = 4 := by norm_num [rowSqDist]
    rw [h, show (4 : ℝ) = 2 ^ 2 by norm_num, Real.sqrt_sq (by norm_num : (0 : ℝ) ≤ 2)]

/-- C2 counterexample: with `T = 1` time step, `D = 2` dimensions,
acceleration weight `1` and accelerations `[[1, 1]]`, the source computes
`1 * ((1^2 + 1^2) / 1) = 2`, whereas the claim's mean over all `T*D = 2`
entries would give `1 * ((1^2 + 1^2) / (1*2)) = 1`: the source divides only
by the number of time steps, not by `T*D`. -/
theorem acceleration_cost_not_mean_over_dims :
    computeCosts Real.sqrt
      { viapoint := [0, 0], viapoint_time := 0, viapoint_radius := 0,
        goal := [0, 0], goal_time := 0,
        viapoint_weight := 0, acceleration_weight := 1, goal_weight := 0 }
      [0] [[0, 0]] [[1, 1]] = some [2, 0, 2, 0] ∧
    (2 : ℝ) ≠ 1 * ((1 ^ 2 + 1 ^ 2) / ((1 : ℝ) * 2)) := by
  constructor
  · simp [computeCosts, distToViapoint?]
    norm_num
  · norm_num

/-- C2 amended: whenever `computeCosts` succeeds and the acceleration weight
is nonzero, the smoothness component (slot 2 of the cost vector) equals the
acceleration weight times the sum of squared accelerations over all entries
divided by the number of time steps `T` alone (not by `T*D`). -/
theorem acceleration_cost_sum_divided_by_time_steps (task : TaskViapoint ℝ)
    (ts : List ℝ) (y ydd : List (List ℝ)) (costs : List ℝ)
    (h : computeCosts Real.sqrt task ts y ydd = some costs)
    (haw : task.acceleration_weight ≠ 0) :
    costs.getD 2 0 =
      task.acceleration_weight *
        ((ydd.flatten.map (fun a => a ^ 2)).sum / (ts.length : ℝ)) := by
  unfold computeCosts at h
  cases hd : distToViapoint? Real.sqrt task ts y with
  | none => rw [hd] at h; simp at h
  | some dist =>
    rw [hd] at h
    simp only [Option.some_bind, Option.some.injEq] at h
    subst h
    have hsum : (ydd.map (fun row => (row.map (fun a => a ^ 2)).sum)).sum
        = (ydd.flatten.map (fun a => a ^ 2)).sum := by
      rw [List.map_flatten, List.sum_flatten, List.map_map]
      rfl
    simp [List.getD, if_pos haw, hsum]

/-- C2 amended witness: the amended statement evaluated at the
counterexample input. -/
theorem acceleration_cost_sum_divided_by_time_steps_witness :
    ([2, 0, 2, 0] : List ℝ).getD 2 0 =
      (1 : ℝ) * ((([[(1 : ℝ), 1]] : List (List ℝ)).flatten.map (fun a => a ^ 2)).sum /
        (([0] : List ℝ).length : ℝ)) := by
  exact acceleration_cost_sum_divided_by_time_steps
    { viapoint := [0, 0], viapoint_time := 0, viapoint_radius := 0,
      goal := [0, 0], goal_time := 0,
      viapoint_weight := 0, acceleration_weight := 1, goal_weight := 0 }
    [0] [[0, 0]] [[1, 1]] [2, 0, 2, 0]
    (by simp [computeCosts, distToViapoint?]; norm_num) (by norm_num)

/-- C3: whenever `computeCosts` succeeds it returns a cost vector of length
exactly 4 laid out as `[total, viapoint, acceleration, goal]` with each
component carrying its own weight factor, the total is the exact sum of the
three components, a zero-weighted component occupies its slot with value 0,
and the length is `1 + getNumberOfCostComponents` with
`getNumberOfCostComponents = 3`. -/
theorem computeCosts_layout_and_total (task : TaskViapoint ℝ) (ts : List ℝ)
    (y ydd : List (List ℝ)) (costs : List ℝ)
    (h : computeCosts Real.sqrt task ts y ydd = some costs) :
    costs.length = 4 ∧
    costs.length = 1 + getNumberOfCostComponents ∧
    getNumberOfCostComponents = 3 ∧
    (∃ dist mean delay : ℝ,
      costs = [task.viapoint_weight * dist + task.acceleration_weight * mean +
                 task.goal_weight * delay,
               task.viapoint_weight * dist, task.acceleration_weight * mean,
               task.goal_weight * delay]) ∧
    costs.getD 0 0 = costs.getD 1 0 + costs.getD 2 0 + costs.getD 3 0 ∧
    (task.viapoint_weight = 0 → costs.getD 1 0 = 0) ∧
    (task.acceleration_weight = 0 → costs.getD 2 0 = 0) ∧
    (task.goal_weight = 0 → costs.getD 3 0 = 0) := by
  unfold computeCosts at h
  cases hd : distToViapoint? Real.sqrt task ts y with
  | none => rw [hd] at h; simp at h
  | some dist =>
    rw [hd] at h
    simp only [Option.some_bind, Option.some.injEq] at h
    subst h
    refine ⟨rfl, rfl, rfl, ⟨dist, _, _, rfl⟩, ?_, ?_, ?_, ?_⟩
    · simp [List.getD]
    · intro hw; simp [List.getD, hw]
    · intro hw; simp [List.getD, hw]
    · intro hw; simp [List.getD, hw]

/-- C3 witness: the layout facts at the all-zero-weight task on an empty
rollout, whose cost vector is `[0, 0, 0, 0]`. -/
theorem computeCosts_layout_and_total_witness :
    (([0, 0, 0, 0] : List ℝ).length = 4) ∧
    (([0, 0, 0, 0] : List ℝ).getD 0 0 =
      ([0, 0, 0, 0] : List ℝ).getD 1 0 + ([0, 0, 0, 0] : List ℝ).getD 2 0 +
        ([0, 0, 0, 0] : List ℝ).getD 3 0) := by
  have h := computeCosts_layout_and_total
    { viapoint := [0], viapoint_time := 0, viapoint_radius := 0,
      goal := [0], goal_time := 0,
      viapoint_weight := 0, acceleration_weight := 0, goal_weight := 0 }
    [] [] [] [0, 0, 0, 0] (by simp [computeCosts, distToViapoint?])
  exact ⟨h.1, h.2.2.2.2.1⟩

/-- C8 counterexample: when the output file cannot be opened,
`TaskViapoint::writeToFile` still returns `true` — the function never
inspects the stream state, so the claim that it returns `false` on open
failure is refuted. -/
theorem writeToFile_true_despite_open_failure :
    writeToFileResult false
      ({ viapoint := [0], viapoint_time := 0, viapoint_radius := 0,
         goal := [0], goal_time := 0, viapoint_weight := 0,
         acceleration_weight := 0, goal_weight := 0 } : TaskViapoint ℝ) = true ∧
    writeToFileResult false
      ({ viapoint := [0], viapoint_time := 0, viapoint_radius := 0,
         goal := [0], goal_time := 0, viapoint_weight := 0,
         acceleration_weight := 0, goal_weight := 0 } : TaskViapoint ℝ) ≠ false :=
  ⟨rfl, by simp [writeToFileResult]⟩

/-- C8 amended: `savePlotRolloutScript` reports an open failure as a boolean
`false` return, but `writeToFile` returns `true` unconditionally, even when
the file cannot be opened. -/
theorem io_failure_boolean_reporting (t : TaskViapoint ℝ) (open_ok : Bool) :
    writeToFileResult open_ok t = true ∧
    savePlotRolloutScriptResult open_ok = open_ok := by
  refine ⟨rfl, ?_⟩
  cases open_ok <;> rfl

/-- C9: for a `TaskViapoint` with `D = 2` (viapoint and goal of length 2),
arbitrary weights, and a non-negative (non-sentinel) viapoint time, reading
back the written record reproduces every field exactly (the idealised
write/parse precision), and a stored record whose viapoint-time field is
negative decodes to the minimum-distance sentinel. -/
theorem taskViapoint_serialization_roundtrip (t : TaskViapoint ℝ) (row : List ℝ)
    (h1 : t.viapoint.length = 2) (h2 : t.goal.length = 2)
    (h3 : 0 ≤ t.viapoint_time)
    (hrow : row.length = 10) (hneg : row.getD 2 0 < 0) :
    readFromFile (writeToFileRecord t) = t ∧
    (readFromFile row).viapoint_time = TIME_AT_MINIMUM_DIST := by
  constructor
  · obtain ⟨a, b, hab⟩ := List.length_eq_two.mp h1
    obtain ⟨c, d, hcd⟩ := List.length_eq_two.mp h2
    obtain ⟨vp, vt, vr, g, gt, vw, aw, gw⟩ := t
    simp only at hab hcd h3
    subst hab hcd
    simp only [readFromFile, writeToFileRecord]
    norm_num [List.getD]
    intro hlt
    exact absurd hlt (not_lt.mpr h3)
  · have hneg2 : row[2]?.getD 0 < 0 := by simpa [List.getD] using hneg
    simp only [readFromFile, hrow]
    norm_num
    intro h0
    exact absurd hneg2 (not_lt.mpr h0)

/-- C9 witness: the round trip at a concrete 2-D task with distinct field
values, and the sentinel decoding at a concrete record with a negative
viapoint-time field. -/
theorem taskViapoint_serialization_roundtrip_witness :
    readFromFile (writeToFileRecord
      ({ viapoint := [1, 2], viapoint_time := 3, viapoint_radius := 5,
         goal := [4, 7], goal_time := 6, viapoint_weight := 8,
         acceleration_weight := 9, goal_weight := 10 } : TaskViapoint ℝ)) =
      { viapoint := [1, 2], viapoint_time := 3, viapoint_radius := 5,
        goal := [4, 7], goal_time := 6, viapoint_weight := 8,
        acceleration_weight := 9, goal_weight := 10 } ∧
    (readFromFile ([0, 0, -5, 0, 0, 0, 0, 0, 0, 0] : List ℝ)).viapoint_time =
      TIME_AT_MINIMUM_DIST :=
  taskViapoint_serialization_roundtrip _ _ (by norm_num) (by norm_num)
    (by norm_num) (by norm_num) (by norm_num [List.getD])

/-- C10: with a nonzero goal weight and a goal time strictly above every
sample time (and a disabled viapoint component), `computeCosts` succeeds and
the goal-delay slot is silently 0 — the forward scan runs off the end and the
suffix of samples is empty; by contrast, under the very same overrun the
viapoint lookup of a task with nonzero viapoint weight and a non-sentinel
viapoint time hits `assert(viapoint_time_step < ts.size())` and fails. -/
theorem goal_time_beyond_samples_silent_zero (task tasb : TaskViapoint ℝ)
    (ts : List ℝ) (y ydd : List (List ℝ))
    (hgw : task.goal_weight ≠ 0) (hvw : task.viapoint_weight = 0)
    (hlt : ∀ s ∈ ts, s < task.goal_time)
    (hvw2 : tasb.viapoint_weight ≠ 0)
    (hvt2 : tasb.viapoint_time ≠ TIME_AT_MINIMUM_DIST)
    (hlt2 : ∀ s ∈ ts, s < tasb.viapoint_time) :
    (∃ costs, computeCosts Real.sqrt task ts y ydd = some costs ∧
      costs.getD 3 0 = 0) ∧
    computeCosts Real.sqrt tasb ts y ydd = none := by
  constructor
  · have hscan := firstAtOrAfter_eq_length task.goal_time ts hlt
    have hdist : distToViapoint? Real.sqrt task ts y = some 0 := by
      simp [distToViapoint?, hvw]
    have hdelay : ((bottomRows y (ts.length - firstAtOrAfter task.goal_time ts)).map
        (fun row => rowSqDist row task.goal)).sum = 0 := by
      rw [hscan, Nat.sub_self]
      simp [bottomRows]
    unfold computeCosts
    rw [hdist]
    simp only [Option.some_bind]
    refine ⟨_, rfl, ?_⟩
    simp [List.getD, hdelay]
  · have hscan2 := firstAtOrAfter_eq_length tasb.viapoint_time ts hlt2
    have hdist2 : distToViapoint? Real.sqrt tasb ts y = none := by
      simp [distToViapoint?, hvw2, hvt2, hscan2]
    unfold computeCosts
    rw [hdist2]
    rfl

/-- C10 witness: a two-sample rollout whose times all precede the goal time
(yielding goal component 0), and the same rollout failing the viapoint
lookup of a task whose viapoint time also exceeds every sample. -/
theorem goal_time_beyond_samples_silent_zero_witness :
    (∃ costs, computeCosts Real.sqrt
      ({ viapoint := [0], viapoint_time := 0, viapoint_radius := 0,
         goal := [9], goal_time := 5, viapoint_weight := 0,
         acceleration_weight := 0, goal_weight := 1 } : TaskViapoint ℝ)
      [0, 1] [[0], [0]] [[0], [0]] = some costs ∧ costs.getD 3 0 = 0) ∧
    computeCosts Real.sqrt
      ({ viapoint := [9], viapoint_time := 5, viapoint_radius := 0,
         goal := [9], goal_time := 5, viapoint_weight := 1,
         acceleration_weight := 0, goal_weight := 0 } : TaskViapoint ℝ)
      [0, 1] [[0], [0]] [[0], [0]] = none := by
  refine goal_time_beyond_samples_silent_zero _ _ _ _ _ (by norm_num) (by norm_num) ?_
    (by norm_num) (by norm_num [TIME_AT_MINIMUM_DIST]) ?_
  · intro s hs
    simp only [List.mem_cons, List.mem_singleton] at hs
    rcases hs with rfl | rfl | h
    · norm_num
    · norm_num
    · cases h
  · intro s hs
    simp only [List.mem_cons, List.mem_singleton] at hs
    rcases hs with rfl | rfl | h
    · norm_num
    · norm_num
    · cases h

/-- A fallible traversal whose body succeeds with the same value on every
element produces the replicated list. -/
theorem listMapOption_const_some {α β : Type*} {f : α → Option β} {c : β} :
    ∀ l : List α, (∀ a ∈ l, f a = some c) →
      listMapOption f l = some (List.replicate l.length c)
  | [], _ => rfl
  | a :: l, h => by
    have ha := h a (List.mem_cons_self a l)
    have hl := listMapOption_const_some l (fun x hx => h x (List.mem_cons_of_mem a hx))
    simp only [listMapOption, ha, hl, List.length_cons, List.replicate_succ]

/-- Deep-copying a slot is the identity under value semantics. -/
theorem optionMap_clone (slot : Option (FunctionApproximator K)) :
    slot.map FunctionApproximator.clone = slot := by
  cases slot <;> rfl

/-- Construction-time initialisation reproduces the supplied bank: an empty
list stays empty, and otherwise each slot is preserved (absent as absent,
present as a deep copy). -/
theorem initFunctionApproximatorsExtDims_eq_self
    (l : List (Option (FunctionApproximator K))) :
    initFunctionApproximatorsExtDims l = l := by
  cases l with
  | nil => rfl
  | cons a l =>
    simp [initFunctionApproximatorsExtDims, optionMap_clone]

/-- C4 counterexample: an extension built from an empty approximator list
(bank length 0) over a base primitive with `dim_orig() = 1` does not make
`computeFunctionApproximatorOutputExtendedDimensions` a zero-returning
no-op: the per-dimension loop runs to `dim_orig()` and reads
`function_approximators_gains_[0]` past the end of the empty vector
(undefined behaviour, embedded as `none`), instead of returning the all-zero
`1 x 1` matrix the claim requires. -/
theorem computeGainOutputs_empty_bank_out_of_bounds :
    computeFunctionApproximatorOutputExtendedDimensions
      ({ dim_orig := 1, baseStep := fun _ x => (x, x),
         function_approximators_gains := initFunctionApproximatorsExtDims [] }
        : DmpWithGainSchedules ℝ) [0] = none ∧
    (initFunctionApproximatorsExtDims
      ([] : List (Option (FunctionApproximator ℝ)))).length = 0 := by
  exact ⟨rfl, rfl⟩

/-- C4 amended: when the bank covers every dimension
(`dim_orig() <= bank length`) and every slot is absent or untrained,
`computeFunctionApproximatorOutputExtendedDimensions` returns the all-zero
`T x dim_orig()` matrix (no predict call is reachable); construction from an
empty list does leave the bank at length 0, but then the computation indexes
out of bounds rather than being a no-op whenever `dim_orig() >= 1`. -/
theorem computeGainOutputs_absent_or_untrained_all_zero
    (d : DmpWithGainSchedules ℝ) (phase : List ℝ)
    (hcover : d.dim_orig ≤ d.function_approximators_gains.length)
    (habs : ∀ slot ∈ d.function_approximators_gains,
      slotAbsentOrUntrained slot = true) :
    computeFunctionApproximatorOutputExtendedDimensions d phase =
      some (List.replicate d.dim_orig (List.replicate phase.length 0)) ∧
    initFunctionApproximatorsExtDims
      ([] : List (Option (FunctionApproximator ℝ))) = [] := by
  refine ⟨?_, rfl⟩
  unfold computeFunctionApproximatorOutputExtendedDimensions
  have hconst := listMapOption_const_some
    (f := gainColumn d.function_approximators_gains phase)
    (c := List.replicate phase.length 0) (List.range d.dim_orig) ?_
  · rw [hconst, List.length_range]
  intro i hi
  have hilt : i < d.function_approximators_gains.length :=
    lt_of_lt_of_le (List.mem_range.mp hi) hcover
  unfold gainColumn
  rw [List.getElem?_eq_getElem hilt]
  have hmem := List.getElem_mem hilt
  have habsi := habs _ hmem
  cases hslot : d.function_approximators_gains[i] with
  | none => rfl
  | some fa =>
    rw [hslot] at habsi
    simp only [slotAbsentOrUntrained, Bool.not_eq_true'] at habsi
    simp [habsi]

/-- C4 amended witness: a `D = 2` bank holding one `NULL` slot and one
untrained approximator yields the all-zero `2 x 2` matrix on a two-sample
phase column. -/
theorem computeGainOutputs_absent_or_untrained_all_zero_witness :
    computeFunctionApproximatorOutputExtendedDimensions
      ({ dim_orig := 2, baseStep := fun _ x => (x, x),
         function_approximators_gains := [none, some ⟨false, fun _ => [7]⟩] }
        : DmpWithGainSchedules ℝ) [0, 1] =
      some (List.replicate 2 (List.replicate 2 (0 : ℝ))) ∧
    initFunctionApproximatorsExtDims
      ([] : List (Option (FunctionApproximator ℝ))) = [] := by
  exact computeGainOutputs_absent_or_untrained_all_zero _ [0, 1] (by norm_num)
    (by intro slot hs
        simp only [List.mem_cons, List.mem_singleton] at hs
        rcases hs with rfl | rfl | h
        · rfl
        · rfl
        · cases h)

/-- C5 counterexample: a bank with one absent slot is a legal state
(`initFunctionApproximatorsExtDims` preserves `NULL` slots), yet
`DmpWithGainSchedules::clone` dereferences each slot with
`function_approximators_gains_[ff]->clone()` and no `NULL` check, so cloning
such a bank is a null-pointer dereference (`none`) — it does not succeed for
every bank. -/
theorem clone_null_slot_dereference :
    DmpWithGainSchedules.clone
      ({ dim_orig := 1, baseStep := fun _ x => (x, x),
         function_approximators_gains := [none] } : DmpWithGainSchedules ℝ) =
      none := rfl

/-- The clone loop succeeds on a bank whose slots are all present, and (with
`clone` the identity on values) reproduces the bank. -/
theorem listMapOption_clone_all_present
    (l : List (Option (FunctionApproximator K)))
    (h : ∀ slot ∈ l, slot.isSome = true) :
    listMapOption (fun slot => slot.map (fun fa => some fa.clone)) l = some l := by
  induction l with
  | nil => rfl
  | cons a l ih =>
    have ha := h a (List.mem_cons_self a l)
    obtain ⟨fa, rfl⟩ := Option.isSome_iff_exists.mp ha
    have hl := ih (fun x hx => h x (List.mem_cons_of_mem _ hx))
    simp only [listMapOption, Option.map_some', hl]
    rfl

/-- C5 amended: when every slot of the bank is present, cloning succeeds and
yields an object with the same base capability and an equal (deep-copied)
bank, whose gain predictions coincide with the original's; an absent slot
instead crashes `clone` (see the counterexample), so absent slots are not
preserved by cloning.  Under the value semantics of this embedding the
deep-copy independence of the clones is exact equality of values. -/
theorem clone_all_present_succeeds (d : DmpWithGainSchedules ℝ) (phase : List ℝ)
    (h : ∀ slot ∈ d.function_approximators_gains, slot.isSome = true) :
    ∃ c, d.clone = some c ∧
      c.function_approximators_gains = d.function_approximators_gains ∧
      computeFunctionApproximatorOutputExtendedDimensions c phase =
        computeFunctionApproximatorOutputExtendedDimensions d phase := by
  refine ⟨d, ?_, rfl, rfl⟩
  unfold DmpWithGainSchedules.clone
  rw [listMapOption_clone_all_present _ h]
  simp only [Option.map_some']
  rw [initFunctionApproximatorsExtDims_eq_self]

/-- C5 amended witness: cloning a bank holding one present (untrained)
approximator succeeds and reproduces its predictions. -/
theorem clone_all_present_succeeds_witness :
    ∃ c, DmpWithGainSchedules.clone
        ({ dim_orig := 1, baseStep := fun _ x => (x, x),
           function_approximators_gains := [some ⟨false, fun _ => []⟩] }
          : DmpWithGainSchedules ℝ) = some c ∧
      c.function_approximators_gains =
        ({ dim_orig := 1, baseStep := fun _ x => (x, x),
           function_approximators_gains := [some ⟨false, fun _ => []⟩] }
          : DmpWithGainSchedules ℝ).function_approximators_gains ∧
      computeFunctionApproximatorOutputExtendedDimensions c [0] =
        computeFunctionApproximatorOutputExtendedDimensions
          ({ dim_orig := 1, baseStep := fun _ x => (x, x),
             function_approximators_gains := [some ⟨false, fun _ => []⟩] }
            : DmpWithGainSchedules ℝ) [0] := by
  exact clone_all_present_succeeds _ [0]
    (by intro slot hs; simp at hs; subst hs; rfl)

/-- C6 counterexample: training with a misc matrix of 2 columns against a
bank of 1 slot violates the column-count precondition, yet the trace starts
with the base primitive's training and only then hits the assertion:
`Dmp::train` (line 233) runs before
`assert(targets.cols() == function_approximators_gains_.size())` (line 248),
so the violation is not detected before the base primitive is mutated. -/
theorem train_base_trained_before_assert :
    trainTrace
      ({ dim_orig := 1, baseStep := fun _ x => (x, x),
         function_approximators_gains := [some ⟨false, fun _ => []⟩] }
        : DmpWithGainSchedules ℝ)
      { ts := [0], misc := [[0], [0]] } =
      [TrainEvent.baseTrain, TrainEvent.assertFail] ∧
    (trainTrace
      ({ dim_orig := 1, baseStep := fun _ x => (x, x),
         function_approximators_gains := [some ⟨false, fun _ => []⟩] }
        : DmpWithGainSchedules ℝ)
      { ts := [0], misc := [[0], [0]] }).head? = some TrainEvent.baseTrain := by
  exact ⟨rfl, rfl⟩

/-- C6 amended: on a misc/bank column-count mismatch or an empty bank, the
fatal precondition violation is detected only after the base primitive has
been trained (`Dmp::train` runs first and mutates it), but before any gain
approximator is trained or retrained: the trace is exactly base training
followed by the assertion failure. -/
theorem train_assert_after_base_training (d : DmpWithGainSchedules ℝ)
    (traj : Trajectory ℝ)
    (h : traj.misc.length ≠ d.function_approximators_gains.length ∨
      d.function_approximators_gains = []) :
    trainTrace d traj = [TrainEvent.baseTrain, TrainEvent.assertFail] := by
  unfold trainTrace
  rcases h with h | h
  · rw [if_pos h]
  · rw [h]
    by_cases hm : traj.misc.length = 0
    · simp [hm]
    · simp [hm]

/-- C6 amended witness: training an empty bank produces exactly base
training followed by the assertion failure. -/
theorem train_assert_after_base_training_witness :
    trainTrace
      ({ dim_orig := 1, baseStep := fun _ x => (x, x),
         function_approximators_gains := [] } : DmpWithGainSchedules ℝ)
      { ts := [0], misc := [] } =
      [TrainEvent.baseTrain, TrainEvent.assertFail] :=
  train_assert_after_base_training _ _ (Or.inr rfl)

/-- C7: whenever `integrateStep` succeeds, the returned state and derivative
are exactly one base-primitive step from the input, and the returned gains
are computed from the phase slice of the **updated** state; moreover two
input states mapped to the same base-step result produce identical outputs,
so the gains never depend on the pre-step input state's phase. -/
theorem integrateStep_gains_from_updated_state (d : DmpWithGainSchedules ℝ)
    (dt : ℝ) (x x' xu xdu gains : List ℝ)
    (hstep : d.baseStep dt x = d.baseStep dt x')
    (hrun : d.integrateStep dt x = some (xu, xdu, gains)) :
    d.integrateStep dt x = d.integrateStep dt x' ∧
    (xu, xdu) = d.baseStep dt x ∧
    ∃ cols, computeFunctionApproximatorOutputExtendedDimensions d
        (phaseOfState d.dim_orig xu) = some cols ∧
      gains = cols.map (fun col => col.getD 0 0) := by
  refine ⟨?_, ?_⟩
  · simp only [DmpWithGainSchedules.integrateStep, hstep]
  · have hrun2 : (computeFunctionApproximatorOutputExtendedDimensions d
        (phaseOfState d.dim_orig (d.baseStep dt x).1)).map
        (fun gains_cols => ((d.baseStep dt x).1, (d.baseStep dt x).2,
          gains_cols.map (fun col => col.getD 0 0))) = some (xu, xdu, gains) := hrun
    cases hc : computeFunctionApproximatorOutputExtendedDimensions d
        (phaseOfState d.dim_orig (d.baseStep dt x).1) with
    | none => rw [hc] at hrun2; simp at hrun2
    | some cols =>
      rw [hc] at hrun2
      simp only [Option.map_some', Option.some.injEq, Prod.mk.injEq] at hrun2
      obtain ⟨h1, h2, h3⟩ := hrun2
      subst h1
      subst h2
      subst h3
      exact ⟨rfl, cols, hc, rfl⟩

/-- C7 witness: a `dim_orig() = 1` extension whose base step shifts every
state entry by `dt`; at `x = [0, 0, 0, 5]` with `dt = 1` the updated state is
`[1, 1, 1, 6]`, its phase slice is `[6]`, and the gains come from that
updated phase. -/
theorem integrateStep_gains_from_updated_state_witness :
    DmpWithGainSchedules.integrateStep
        ({ dim_orig := 1, baseStep := fun dt x => (x.map (fun a => a + dt), x),
           function_approximators_gains := [none] } : DmpWithGainSchedules ℝ)
        1 [0, 0, 0, 5] =
      DmpWithGainSchedules.integrateStep
        ({ dim_orig := 1, baseStep := fun dt x => (x.map (fun a => a + dt), x),
           function_approximators_gains := [none] } : DmpWithGainSchedules ℝ)
        1 [0, 0, 0, 5] ∧
    (([1, 1, 1, 6] : List ℝ), ([0, 0, 0, 5] : List ℝ)) =
      ({ dim_orig := 1, baseStep := fun dt x => (x.map (fun a => a + dt), x),
         function_approximators_gains := [none] } : DmpWithGainSchedules ℝ).baseStep
        1 [0, 0, 0, 5] ∧
    ∃ cols, computeFunctionApproximatorOutputExtendedDimensions
        ({ dim_orig := 1, baseStep := fun dt x => (x.map (fun a => a + dt), x),
           function_approximators_gains := [none] } : DmpWithGainSchedules ℝ)
        (phaseOfState 1 [1, 1, 1, 6]) = some cols ∧
      ([0] : List ℝ) = cols.map (fun col => col.getD 0 0) := by
  refine integrateStep_gains_from_updated_state _ 1 [0, 0, 0, 5] [0, 0, 0, 5]
    [1, 1, 1, 6] [0, 0, 0, 5] [0] rfl ?_
  simp only [DmpWithGainSchedules.integrateStep,
    computeFunctionApproximatorOutputExtendedDimensions, listMapOption, gainColumn,
    phaseOfState]
  norm_num

end DmpBbo
